import Mathlib

/-!
Verification of the purple rooms-navigation agent (`src/agent.py`,
class `BaselinePurpleAgent`).  The Python class is shallowly embedded:
the mutable `self` becomes an explicit `AgentState` record, the
regex-based prompt parser becomes character-list scanning functions with
the same label-anchored search semantics, and the places where the
Python code can raise `IndexError` (indexing the eight flag vectors
with an out-of-range room id) are modelled with `Except PyErr`, the
partially mutated state being returned alongside the error exactly as
the mutations on `self` persist past a raised exception.
-/

namespace Purple

/-- The only exception class the decision engine itself can raise:
an out-of-range list subscript (`IndexError`). -/
inductive PyErr
  | indexError
deriving DecidableEq

/-- Action payloads produced by the agent (the JSON dictionaries
`{"command": ...}` of `agent.py`). -/
inductive ActionJ
  | move (target_room : Nat)
  | getkey
  | usekey
  | inspect
  | commit
deriving DecidableEq

/-- The mutable per-episode state of `BaselinePurpleAgent`, one field per
attribute assigned in `reset`.  The flag vectors are generic in the
element type `α` because `_sync_state` stores whatever list the caught
`ast.literal_eval` produces; the concrete engine below instantiates `α`
with the integers, the element type of every vector the host's prompt
contract (and `reset` itself) uses. -/
structure AgentStateG (α : Type) where
  adj : List (Nat × List Nat)
  room_locked : List α
  room_haskey : List α
  room_exit : List α
  room_visited : List α
  room_inspected : List α
  current_room : Nat
  obs_visited : List Nat
  obs_frontier : List Nat
  obs_parent : List (Nat × Option Nat)
  exit_room : Option Nat
  known_key_room : Option Nat
  path_to_exit : List Nat
  path_index : Nat
  has_committed : Bool
  pending_getkey : Bool
  pending_usekey : Bool
deriving DecidableEq

/-- The state of the concrete engine: all flag vectors hold integers. -/
abbrev AgentState : Type := AgentStateG Int

/-- `reset` (agent.py lines 15-37): the freshly initialised state. -/
def resetState : AgentState where
  adj := []
  room_locked := List.replicate 8 (-1)
  room_haskey := List.replicate 8 (-1)
  room_exit := List.replicate 8 (-1)
  room_visited := List.replicate 8 0
  room_inspected := List.replicate 8 0
  current_room := 0
  obs_visited := [0]
  obs_frontier := []
  obs_parent := [(0, none)]
  exit_room := none
  known_key_room := none
  path_to_exit := []
  path_index := 0
  has_committed := false
  pending_getkey := false
  pending_usekey := false

/-- `self.reset()` discards the previous state entirely. -/
def reset (_ : AgentState) : AgentState := resetState

/-! ## Prompt parsing (`_parse_list`, `_parse_int`, phase regex) -/

/-- `\s` of the regexes used by the agent. -/
def isSpaceChar (c : Char) : Bool :=
  c == ' ' || c == '\t' || c == '\n' || c == '\r' || c == '\x0b' || c == '\x0c'

/-- `\d` of the regexes used by the agent. -/
def isDigitChar (c : Char) : Bool :=
  Nat.ble 48 c.toNat && Nat.ble c.toNat 57

/-- `\w` of the phase regex. -/
def isWordChar (c : Char) : Bool :=
  isDigitChar c || (Nat.ble 97 c.toNat && Nat.ble c.toNat 122) ||
    (Nat.ble 65 c.toNat && Nat.ble c.toNat 90) || c == '_'

/-- Whether `pat` is a prefix of `s`. -/
def startsWith : List Char → List Char → Bool
  | [], _ => true
  | _ :: _, [] => false
  | p :: pt, c :: ct => if p = c then startsWith pt ct else false

/-- Whether `pat` occurs as a contiguous substring of `s`
(Python's `pat in s`). -/
def containsSub (pat : List Char) : List Char → Bool
  | [] => startsWith pat []
  | c :: rest => startsWith pat (c :: rest) || containsSub pat rest

/-- Value of a run of decimal digits (`int(...)` on a `\d+` match). -/
def digitsToNat (acc : Nat) : List Char → Nat
  | [] => acc
  | c :: t => digitsToNat (acc * 10 + (c.toNat - 48)) t

/-- Whitespace of the Python tokenizer inside brackets: space, tab,
formfeed, and (joined) newlines.  Note `\x0b` is `\s` for the regex but
NOT tokenizer whitespace — `[1,\x0b2]` is a SyntaxError in Python. -/
def isTokSpaceChar (c : Char) : Bool :=
  c == ' ' || c == '\t' || c == '\n' || c == '\r' || c == '\x0c'

/-- Strip tokenizer whitespace from both ends of a list item. -/
def trimItem (cs : List Char) : List Char :=
  ((cs.dropWhile isTokSpaceChar).reverse.dropWhile isTokSpaceChar).reverse

/-- `re.search(label + ":\s*(\d+)")` — the first occurrence of the label
followed (after whitespace) by at least one digit yields that maximal
digit run. -/
def findIntAfter (lab : List Char) : List Char → Option Nat
  | [] => none
  | c :: rest =>
    if startsWith lab (c :: rest) then
      let after := ((c :: rest).drop lab.length).dropWhile isSpaceChar
      let ds := after.takeWhile isDigitChar
      if ds = [] then findIntAfter lab rest else some (digitsToNat 0 ds)
    else findIntAfter lab rest

/-- The characters strictly before the first `]`, or `none` when no `]`
follows (in which case the whole regex search fails, since every later
candidate `[` would need a `]` even further right). -/
def splitAtClose (acc : List Char) : List Char → Option (List Char)
  | [] => none
  | c :: t => if c = ']' then some acc.reverse else splitAtClose (c :: acc) t

/-- `re.search(label + ":\s*(\[.*?\])", ..., re.DOTALL)` — the first
occurrence of the label followed (after whitespace) by `[` yields the
text up to the nearest subsequent `]`. -/
def findBracketAfter (lab : List Char) : List Char → Option (List Char)
  | [] => none
  | c :: rest =>
    if startsWith lab (c :: rest) then
      match ((c :: rest).drop lab.length).dropWhile isSpaceChar with
      | '[' :: t => splitAtClose [] t
      | _ => findBracketAfter lab rest
    else findBracketAfter lab rest

/-- Split on commas (the list items of a bracketed literal). -/
def splitCommas (cur : List Char) : List Char → List (List Char)
  | [] => [cur.reverse]
  | c :: t => if c = ',' then cur.reverse :: splitCommas [] t else splitCommas (c :: cur) t

/-- Hexadecimal digit of the Python integer grammar. -/
def isHexDigit (c : Char) : Bool :=
  isDigitChar c || (Nat.ble 97 c.toNat && Nat.ble c.toNat 102) ||
    (Nat.ble 65 c.toNat && Nat.ble c.toNat 70)

/-- Octal digit. -/
def isOctDigit (c : Char) : Bool := Nat.ble 48 c.toNat && Nat.ble c.toNat 55

/-- Binary digit. -/
def isBinDigit (c : Char) : Bool := c == '0' || c == '1'

/-- Value of one digit in any base up to 16. -/
def hexDigitVal (c : Char) : Nat :=
  if isDigitChar c then c.toNat - 48
  else if Nat.ble 97 c.toNat then c.toNat - 87
  else c.toNat - 55

/-- Value of an underscore-free digit run in the given base. -/
def digitsToNatBase (base : Nat) (acc : Nat) : List Char → Nat
  | [] => acc
  | c :: t => digitsToNatBase base (acc * base + hexDigitVal c) t

/-- Python's `(["_"] digit)+` run (the part of a hex/octal/binary
literal after its base prefix): an underscore may lead the run there
but may never trail or double, and at least one digit must appear. -/
def underscoredRun (isD : Char → Bool) : List Char → Bool
  | [] => false
  | ['_'] => false
  | '_' :: c :: t => isD c && underscoredRun isD (c :: t)
  | [c] => isD c
  | c :: rest => isD c && underscoredRun isD rest

/-- Python's `decinteger` grammar:
`nonzerodigit (["_"] digit)* | "0" (["_"] "0")*` — underscores must sit
between digits and a literal starting with `0` may contain only zeros
(`01` is a SyntaxError, `0_0` is the integer 0). -/
def decIntOk : List Char → Bool
  | [] => false
  | '0' :: rest => underscoredRun (fun c => c == '0') ('0' :: rest)
  | c :: rest => isDigitChar c && underscoredRun isDigitChar (c :: rest)

/-- An unsigned Python integer literal — decimal, hexadecimal, octal or
binary, with Python's underscore and leading-zero rules — and its
value. -/
def parseUnsignedInt (cs : List Char) : Option Nat :=
  match cs with
  | '0' :: x :: rest =>
    if x = 'x' ∨ x = 'X' then
      if underscoredRun isHexDigit rest then
        some (digitsToNatBase 16 0 (rest.filter (fun c => decide (c ≠ '_'))))
      else none
    else if x = 'o' ∨ x = 'O' then
      if underscoredRun isOctDigit rest then
        some (digitsToNatBase 8 0 (rest.filter (fun c => decide (c ≠ '_'))))
      else none
    else if x = 'b' ∨ x = 'B' then
      if underscoredRun isBinDigit rest then
        some (digitsToNatBase 2 0 (rest.filter (fun c => decide (c ≠ '_'))))
      else none
    else
      if decIntOk ('0' :: x :: rest) then
        some (digitsToNatBase 10 0
          (('0' :: x :: rest).filter (fun c => decide (c ≠ '_'))))
      else none
  | _ =>
    if decIntOk cs then
      some (digitsToNatBase 10 0 (cs.filter (fun c => decide (c ≠ '_'))))
    else none

/-- One integer item of a bracketed list: an optional sign (whitespace
may separate it from the number, as Python parses `- 1` as a unary
minus), then a Python integer literal.  This is a SOUND fragment of
`ast.literal_eval`'s item grammar: every item accepted here is accepted
by Python with the same value (the remaining literal forms — floats,
booleans, strings, tuples, and so on — enter the C1/C2 theorems through
the abstract evaluation function of `sync_state_gen`). -/
def parseIntLiteral (cs : List Char) : Option Int :=
  match trimItem cs with
  | '-' :: r => (parseUnsignedInt (r.dropWhile isTokSpaceChar)).map (fun n => -(n : Int))
  | '+' :: r => (parseUnsignedInt (r.dropWhile isTokSpaceChar)).map (fun n => (n : Int))
  | r => (parseUnsignedInt r).map (fun n => (n : Int))

/-- Parse every item of the split, failing when any item is malformed. -/
def parseItems : List (List Char) → Option (List Int)
  | [] => some []
  | seg :: t =>
    match parseIntLiteral seg, parseItems t with
    | some v, some vs => some (v :: vs)
    | _, _ => none

/-- The integer-list instance of the caught `ast.literal_eval` on a
bracket payload: empty brackets give `[]`, a single trailing comma is
tolerated, each item must be an integer literal; malformed content
yields "no value" (the program's `except` clause). -/
def parseIntList (contents : List Char) : Option (List Int) :=
  if trimItem contents = [] then some []
  else
    let segs := splitCommas [] contents
    let segs :=
      match segs.getLast? with
      | some lst => if trimItem lst = [] ∧ segs.length > 1 then segs.dropLast else segs
      | none => segs
    parseItems segs

/-- The label string followed by a colon, as scanned for by the regex. -/
def labelColon (label : String) : List Char := (label ++ ":").data

/-- `_parse_list` (agent.py lines 83-91) with the evaluation of the
extracted bracket group left abstract: `ev contents` stands for
`ast.literal_eval("[" ++ contents ++ "]")` with its `ValueError` and
`SyntaxError` caught (`none` is both "regex found no group" and "the
eval raised"). -/
def parse_list_gen {α : Type} (ev : List Char → Option (List α))
    (prompt : List Char) (label : String) : Option (List α) :=
  match findBracketAfter (labelColon label) prompt with
  | some contents => ev contents
  | none => none

/-- `_parse_list` instantiated with the integer-list evaluator: the
concrete engine below runs on this instance. -/
def parse_list (prompt : List Char) (label : String) : Option (List Int) :=
  parse_list_gen parseIntList prompt label

/-- `_parse_int` (agent.py lines 93-96). -/
def parse_int (prompt : List Char) (label : String) : Option Nat :=
  findIntAfter (labelColon label) prompt

/-- `re.search("Phase:\s*(\w+)")` — the first occurrence of `Phase:`
followed (after whitespace) by at least one word character yields that
maximal word-character run. -/
def findWordAfter (lab : List Char) : List Char → Option (List Char)
  | [] => none
  | c :: rest =>
    if startsWith lab (c :: rest) then
      let ws := (((c :: rest).drop lab.length).dropWhile isSpaceChar).takeWhile isWordChar
      if ws = [] then findWordAfter lab rest else some ws
    else findWordAfter lab rest

/-- `phase_match and "Execution" in phase_match.group(1)`
(agent.py lines 129-131). -/
def phaseIndicatesExecution (prompt : List Char) : Bool :=
  match findWordAfter (labelColon "Phase") prompt with
  | some w => containsSub "Execution".data w
  | none => false

/-- The index assigned by `for i, val in enumerate(v): if val == 1: x = i`
— i.e. the last index whose element passes the `== 1` test (given here
abstractly), or `none` when no entry passes. -/
def lastIndexSat {α : Type} (eqOne : α → Bool) (v : List α) : Option Nat :=
  (v.foldl (fun (p : Nat × Option Nat) val =>
    (p.1 + 1, if eqOne val then some p.1 else p.2)) (0, none)).2

/-- `lastIndexSat` for integer vectors, where Python's `val == 1` is
exactly `val = 1`. -/
def lastIndexEqOne (v : List Int) : Option Nat :=
  lastIndexSat (fun x => decide (x = 1)) v

/-- The first index holding value 1 (the spec's wording for which room
id gets recorded from a parsed flag vector). -/
def firstIndexEqOne (v : List Int) : Option Nat :=
  v.findIdx? (fun x => decide (x = 1))

/-- `_sync_state` (agent.py lines 98-131): each field is overwritten
only when its label parses; the has-key and is-exit vectors additionally
update the known key/exit room to the last index whose value compares
equal to 1; a phase word containing "Execution" sets the committed
flag.  The caught `ast.literal_eval` is the abstract parameter `ev` and
Python's `val == 1` comparison is the abstract parameter `eqOne`, so
theorems about this definition cover the program's full literal grammar
and numeric equality by instantiation. -/
def sync_state_gen {α : Type} (ev : List Char → Option (List α)) (eqOne : α → Bool)
    (prompt : List Char) (s : AgentStateG α) : AgentStateG α :=
  let s :=
    match parse_int prompt "Current Room" with
    | some n => { s with current_room := n }
    | none => s
  let s :=
    match parse_list_gen ev prompt "Rooms Visited" with
    | some v => { s with room_visited := v }
    | none => s
  let s :=
    match parse_list_gen ev prompt "Rooms Inspected" with
    | some v => { s with room_inspected := v }
    | none => s
  let s :=
    match parse_list_gen ev prompt "Locked" with
    | some v => { s with room_locked := v }
    | none => s
  let s :=
    match parse_list_gen ev prompt "Has Key" with
    | some v =>
      { s with room_haskey := v,
               known_key_room :=
                 match lastIndexSat eqOne v with
                 | some i => some i
                 | none => s.known_key_room }
    | none => s
  let s :=
    match parse_list_gen ev prompt "Is Exit" with
    | some v =>
      { s with room_exit := v,
               exit_room :=
                 match lastIndexSat eqOne v with
                 | some i => some i
                 | none => s.exit_room }
    | none => s
  if phaseIndicatesExecution prompt then { s with has_committed := true } else s

/-- `_sync_state` instantiated for the concrete integer engine. -/
def sync_state (prompt : List Char) (s : AgentState) : AgentState :=
  sync_state_gen parseIntList (fun x => decide (x = 1)) prompt s

/-! ## Adjacency map and breadth-first search -/

/-- `adj.get(node, set())`. -/
def adjGet : List (Nat × List Nat) → Nat → List Nat
  | [], _ => []
  | (k, v) :: t, a => if k = a then v else adjGet t a

/-- Insertion into a neighbour set (CPython iterates a small set of
room ids in ascending order, so the set is kept as a sorted list). -/
def insertSorted (b : Nat) : List Nat → List Nat
  | [] => [b]
  | x :: t => if b = x then x :: t else if b < x then b :: x :: t else x :: insertSorted b t

/-- `adj.setdefault(a, set()).add(b)`. -/
def adjAdd : List (Nat × List Nat) → Nat → Nat → List (Nat × List Nat)
  | [], a, b => [(a, [b])]
  | (k, v) :: t, a, b =>
    if k = a then (k, insertSorted b v) :: t else (k, v) :: adjAdd t a b

/-- Total number of stored neighbour entries; bounds the number of BFS
queue insertions. -/
def adjSize (adj : List (Nat × List Nat)) : Nat :=
  (adj.map (fun p => p.2.length)).sum

/-- One BFS expansion: push each not-yet-visited neighbour with its
extended path, marking it visited at push time. -/
def bfs_expand (visited : List Nat) (queue : List (Nat × List Nat)) (path : List Nat) :
    List Nat → List Nat × List (Nat × List Nat)
  | [] => (visited, queue)
  | n :: t =>
    if n ∈ visited then bfs_expand visited queue path t
    else bfs_expand (n :: visited) (queue ++ [(n, path ++ [n])]) path t

/-- The BFS `while queue` loop; the fuel counts pops and
`adjSize adj + 1` always suffices since every push marks a new node
visited and pushes come only from stored neighbour entries. -/
def bfs_loop (adj : List (Nat × List Nat)) (target : Nat) :
    Nat → List Nat → List (Nat × List Nat) → List Nat
  | 0, _, _ => []
  | _ + 1, _, [] => []
  | fuel + 1, visited, (node, path) :: queue =>
    if node = target then path
    else
      let vq := bfs_expand visited queue path (adjGet adj node)
      bfs_loop adj target fuel vq.1 vq.2

/-- `_bfs_path` (agent.py lines 133-150). -/
def bfs_path (adj : List (Nat × List Nat)) (start target : Nat) : List Nat :=
  if start = target then [start]
  else bfs_loop adj target (adjSize adj + 1) [start] [(start, [start])]

/-! ## Route planning (`_plan_solution`) -/

/-- Python list subscription: `IndexError` out of range. -/
def pyGet (l : List Int) (i : Nat) : Except PyErr Int :=
  match l.get? i with
  | some v => Except.ok v
  | none => Except.error PyErr.indexError

/-- `[r for r in path if self.room_locked[r] == 1]`, evaluated left to
right, raising on the first out-of-range subscript. -/
def locksOnPath (locked : List Int) : List Nat → Except PyErr (List Nat)
  | [] => Except.ok []
  | r :: t =>
    match pyGet locked r with
    | Except.error e => Except.error e
    | Except.ok v =>
      match locksOnPath locked t with
      | Except.error e => Except.error e
      | Except.ok rest => Except.ok (if v = 1 then r :: rest else rest)

/-- The minimising loop over `locks_on_path` starting from the sentinel
999 (agent.py lines 208-213). -/
def firstLockIdx (d : List Nat) (locks : List Nat) : Nat :=
  locks.foldl (fun acc r => min acc (d.indexOf r)) 999

/-- The `have_key_on_path` computation (agent.py lines 204-216): true
exactly when a key room is known, lies on the direct path, and its
index precedes the first locked index. -/
def have_key_on_path (key_room : Option Nat) (path_direct locks : List Nat) : Bool :=
  match key_room with
  | some k =>
    if k ∈ path_direct then
      decide (path_direct.indexOf k < firstLockIdx path_direct locks)
    else false
  | none => false

/-- `_plan_solution` (agent.py lines 191-227); `key_needed` is
`!locks.isEmpty` and the pure local bindings of the Python code are
inlined. -/
def plan_solution (s : AgentState) : Except PyErr Unit × AgentState :=
  match s.exit_room with
  | none => (Except.ok (), { s with path_to_exit := [] })
  | some ex =>
    if bfs_path s.adj 0 ex = [] then (Except.ok (), { s with path_to_exit := [] })
    else
      match locksOnPath s.room_locked (bfs_path s.adj 0 ex) with
      | Except.error e => (Except.error e, s)
      | Except.ok locks =>
        match s.known_key_room with
        | some k =>
          if !locks.isEmpty &&
              !(have_key_on_path s.known_key_room (bfs_path s.adj 0 ex) locks) then
            if !(bfs_path s.adj 0 k).isEmpty && !(bfs_path s.adj k ex).isEmpty then
              (Except.ok (),
                { s with path_to_exit := bfs_path s.adj 0 k ++ (bfs_path s.adj k ex).tail })
            else (Except.ok (), { s with path_to_exit := bfs_path s.adj 0 ex })
          else (Except.ok (), { s with path_to_exit := bfs_path s.adj 0 ex })
        | none => (Except.ok (), { s with path_to_exit := bfs_path s.adj 0 ex })

/-! ## Observation-phase action (`_obs_action`, `_record_new_neighbors`) -/

/-- `any(self.room_locked[r] == 1 for r in self.path_to_exit)` with
short-circuiting, raising on an out-of-range subscript. -/
def obs_pathlocked (locked : List Int) : List Nat → Except PyErr Bool
  | [] => Except.ok false
  | r :: t =>
    match pyGet locked r with
    | Except.error e => Except.error e
    | Except.ok v => if v = 1 then Except.ok true else obs_pathlocked locked t

/-- The tail of `_obs_action` (agent.py lines 170-175): plan and COMMIT
when the frontier is exhausted, otherwise pop and MOVE. -/
def obs_tail (s : AgentState) : Except PyErr ActionJ × AgentState :=
  match s.obs_frontier with
  | [] =>
    match plan_solution s with
    | (Except.error e, s1) => (Except.error e, s1)
    | (Except.ok _, s1) => (Except.ok ActionJ.commit, s1)
  | t :: rest => (Except.ok (ActionJ.move t), { s with obs_frontier := rest })

/-- The `can_commit` computation of `_obs_action` with a known exit
(agent.py lines 159-166): commit when the planned path has no lock, or
a key room is known, or the frontier is exhausted. -/
def can_commit_flag (pathLocked : Bool) (s : AgentState) : Bool :=
  if !pathLocked then true
  else if s.known_key_room.isSome then true
  else s.obs_frontier.isEmpty

/-- `_obs_action` (agent.py lines 152-175). -/
def obs_action (s : AgentState) : Except PyErr ActionJ × AgentState :=
  match s.exit_room with
  | some _ =>
    match plan_solution s with
    | (Except.error e, s1) => (Except.error e, s1)
    | (Except.ok _, s1) =>
      match obs_pathlocked s1.room_locked s1.path_to_exit with
      | Except.error e => (Except.error e, s1)
      | Except.ok pathLocked =>
        if can_commit_flag pathLocked s1 then (Except.ok ActionJ.commit, s1)
        else obs_tail s1
  | none => obs_tail s

/-- `self.obs_parent[i] = prev_room` (dictionary assignment). -/
def parentSet : List (Nat × Option Nat) → Nat → Option Nat → List (Nat × Option Nat)
  | [], k, v => [(k, v)]
  | (k0, v0) :: t, k, v =>
    if k0 = k then (k0, v) :: t else (k0, v0) :: parentSet t k v

/-- The frontier re-seeding loop of `_record_new_neighbors`
(agent.py lines 187-189): every candidate not confirmed visited is
appended. -/
def enqueueUnvisited (s : AgentState) : AgentState :=
  { s with obs_frontier :=
      s.obs_frontier ++ (List.range 8).filter (fun c => decide (c ∉ s.obs_visited)) }

/-- One iteration of the `_record_new_neighbors` loop for index `i`
(agent.py lines 179-189), with Python's short-circuit `and`. -/
def record_step (prev_room : Nat) (prev_visited : List Int) (i : Nat) (s : AgentState) :
    Except PyErr Unit × AgentState :=
  match pyGet s.room_visited i with
  | Except.error e => (Except.error e, s)
  | Except.ok v =>
    if v = 1 then
      match pyGet prev_visited i with
      | Except.error e => (Except.error e, s)
      | Except.ok pv =>
        if pv = 0 then
          if i ∈ s.obs_visited then
            (Except.ok (), { s with adj := adjAdd (adjAdd s.adj prev_room i) i prev_room })
          else
            (Except.ok (), enqueueUnvisited
              { s with adj := adjAdd (adjAdd s.adj prev_room i) i prev_room,
                       obs_visited := i :: s.obs_visited,
                       obs_parent := parentSet s.obs_parent i (some prev_room) })
        else (Except.ok (), s)
    else (Except.ok (), s)

/-- The `for i in range(8)` loop of `_record_new_neighbors`, aborting on
the first raised subscript with the mutations so far retained. -/
def record_fold (prev_room : Nat) (prev_visited : List Int) :
    List Nat → AgentState → Except PyErr Unit × AgentState
  | [], s => (Except.ok (), s)
  | i :: t, s =>
    match record_step prev_room prev_visited i s with
    | (Except.error e, s1) => (Except.error e, s1)
    | (Except.ok _, s1) => record_fold prev_room prev_visited t s1

/-- `_record_new_neighbors` (agent.py lines 177-189). -/
def record_new_neighbors (prev_room : Nat) (prev_visited : List Int) (s : AgentState) :
    Except PyErr Unit × AgentState :=
  record_fold prev_room prev_visited (List.range 8) s

/-! ## Execution-phase action (`_exec_action`) -/

/-- The final fallback of `_exec_action` (agent.py lines 256-261). -/
def exec_tail (s : AgentState) : Except PyErr ActionJ × AgentState :=
  match s.exit_room with
  | some ex =>
    if s.current_room = ex then
      match pyGet s.room_locked s.current_room with
      | Except.error e => (Except.error e, s)
      | Except.ok lk =>
        if lk = 1 then (Except.ok ActionJ.usekey, s)
        else (Except.ok ActionJ.inspect, s)
    else (Except.ok ActionJ.inspect, s)
  | none => (Except.ok ActionJ.inspect, s)

/-- The cursor fallback (agent.py lines 253-255). -/
def exec_cursor_step (s : AgentState) : Except PyErr ActionJ × AgentState :=
  if s.path_index + 1 < s.path_to_exit.length then
    (Except.ok (ActionJ.move (s.path_to_exit.getD (s.path_index + 1) 0)), s)
  else exec_tail s

/-- `list.index` inside `try`: `none` models the caught `ValueError`. -/
def indexOfOpt (l : List Nat) (x : Nat) : Option Nat :=
  if x ∈ l then some (l.indexOf x) else none

/-- The path-replay step (agent.py lines 244-255): look up the current
room in the route and move to its successor; when the lookup fails or
the current room is the route's last element, fall back to the cursor. -/
def exec_path_step (s : AgentState) : Except PyErr ActionJ × AgentState :=
  if s.path_index < s.path_to_exit.length then
    match indexOfOpt s.path_to_exit s.current_room with
    | some ci =>
      if ci + 1 < s.path_to_exit.length then
        (Except.ok (ActionJ.move (s.path_to_exit.getD (ci + 1) 0)), s)
      else exec_cursor_step s
    | none => exec_cursor_step s
  else exec_tail s

/-- `_exec_action` (agent.py lines 229-261). -/
def exec_action (s : AgentState) : Except PyErr ActionJ × AgentState :=
  if s.pending_getkey then (Except.ok ActionJ.getkey, { s with pending_getkey := false })
  else if s.pending_usekey then (Except.ok ActionJ.usekey, { s with pending_usekey := false })
  else
    match pyGet s.room_haskey s.current_room with
    | Except.error e => (Except.error e, s)
    | Except.ok hk =>
      if hk = 1 then (Except.ok ActionJ.getkey, s)
      else
        match pyGet s.room_locked s.current_room with
        | Except.error e => (Except.error e, s)
        | Except.ok lk =>
          if lk = 1 then (Except.ok ActionJ.usekey, s)
          else exec_path_step s

/-! ## The per-turn selector (`select_action`) and the `run` wrapper -/

/-- `any(self.room_visited[i] != prev_visited[i] for i in range(8))`
with short-circuiting. -/
def anyVisitedDiff (curV prevV : List Int) : List Nat → Except PyErr Bool
  | [] => Except.ok false
  | i :: t =>
    match pyGet curV i with
    | Except.error e => Except.error e
    | Except.ok x =>
      match pyGet prevV i with
      | Except.error e => Except.error e
      | Except.ok y => if x ≠ y then Except.ok true else anyVisitedDiff curV prevV t

/-- `if not self.path_to_exit and self.exit_room is not None:
self._plan_solution()` (agent.py lines 282-283). -/
def exec_replan (s : AgentState) : Except PyErr Unit × AgentState :=
  if s.path_to_exit = [] ∧ s.exit_room ≠ none then plan_solution s
  else (Except.ok (), s)

/-- The body of `select_action` after the `_sync_state` call, with the
previously captured `prev_room` and `prev_visited` as parameters
(agent.py lines 269-285). -/
def select_after_sync (s : AgentState) (prev_room : Nat) (prev_visited : List Int) :
    Except PyErr ActionJ × AgentState :=
  if s.has_committed = false then
    match (if s.current_room ≠ prev_room then Except.ok true
           else anyVisitedDiff s.room_visited prev_visited (List.range 8)) with
    | Except.error e => (Except.error e, s)
    | Except.ok cond =>
      match (if cond then record_new_neighbors prev_room prev_visited s
             else (Except.ok (), s)) with
      | (Except.error e, s1) => (Except.error e, s1)
      | (Except.ok _, s1) =>
        let s2 :=
          if s1.obs_frontier = [] ∧ s1.obs_visited.length = 1 then
            { s1 with obs_frontier :=
                s1.obs_frontier ++ (List.range 8).filter (fun c => decide (c ≠ 0)) }
          else s1
        obs_action s2
  else
    match exec_replan s with
    | (Except.error e, s1) => (Except.error e, s1)
    | (Except.ok _, s1) => exec_action s1

/-- `select_action` (agent.py lines 263-285): capture the previous
visited vector and room, parse the prompt into the state, then take the
observation or execution branch. -/
def select_action (s0 : AgentState) (prompt : String) : Except PyErr ActionJ × AgentState :=
  select_after_sync (sync_state prompt.data s0) s0.current_room s0.room_visited

/-- The `"(Move 0)" in prompt` episode-boundary reset of `run`
(agent.py lines 62-63). -/
def resetIfMove0 (prompt : String) (s : AgentState) : AgentState :=
  if containsSub "(Move 0)".data prompt.data then reset s else s

/-- `run` (agent.py lines 39-74), restricted to its decision content:
reset on the turn-zero marker, then select an action, degrading to
INSPECT when `select_action` raises; the mutations made before the
raise persist, exactly as on the Python `self`. -/
def runStep (s : AgentState) (prompt : String) : ActionJ × AgentState :=
  match select_action (resetIfMove0 prompt s) prompt with
  | (Except.ok a, s1) => (a, s1)
  | (Except.error _, s1) => (ActionJ.inspect, s1)

/-- The state evolution across one `select_action` turn. -/
def stepState (s : AgentState) (prompt : String) : AgentState :=
  (select_action s prompt).2

/-- The state after a sequence of `select_action` turns. -/
def stepMany (s : AgentState) : List String → AgentState
  | [] => s
  | p :: ps => stepMany (stepState s p) ps

/-- The per-turn results of an episode: the outcome of each
`select_action` call on the successive prompts. -/
def actionsOf (s : AgentState) : List String → List (Except PyErr ActionJ)
  | [] => []
  | p :: ps =>
    match select_action s p with
    | (a, s1) => a :: actionsOf s1 ps

/-- Whether a turn outcome is a MOVE action. -/
def isMoveOutcome : Except PyErr ActionJ → Bool
  | Except.ok (ActionJ.move _) => true
  | _ => false

/-- Whether a turn outcome is the COMMIT action. -/
def isCommitOutcome : Except PyErr ActionJ → Bool
  | Except.ok ActionJ.commit => true
  | _ => false

/-! ## Relations on the adjacency map -/

/-- Every stored edge of `A` is also stored in `B`. -/
def AdjLe (A B : List (Nat × List Nat)) : Prop :=
  ∀ x y, y ∈ adjGet A x → y ∈ adjGet B x

/-- The adjacency map stores every edge in both directions. -/
def AdjSymm (A : List (Nat × List Nat)) : Prop :=
  ∀ x y, y ∈ adjGet A x → x ∈ adjGet A y

/-! ## Concrete inputs used by witnesses and counterexamples -/

/-- A prompt whose is-exit vector holds 1 at two indices. -/
def exitVectorPrompt : String := "Is Exit: [1, 0, 1, 0, 0, 0, 0, 0]"

/-- A prompt with single-1 has-key and is-exit vectors. -/
def keyExitPrompt : String :=
  "Has Key: [0, 1, 0, 0, 0, 0, 0, 0]\nIs Exit: [0, 0, 1, 0, 0, 0, 0, 0]"

/-- A prompt whose visited vector has length 2, not 8. -/
def shortListPrompt : String := "Rooms Visited: [1, 2]"

/-- A prompt whose visited field has malformed bracket contents. -/
def malformedPrompt : String := "Rooms Visited: [1, x]"

/-- A prompt whose visited item has a leading zero — a SyntaxError for
Python's tokenizer, hence a no-op for the field. -/
def leadingZeroPrompt : String := "Rooms Visited: [01]"

/-- A prompt whose visited items use Python's digit-group underscores
(`1_0` is the integer 10). -/
def underscorePrompt : String := "Rooms Visited: [1_0, 2]"

/-- An is-exit prompt carrying Python booleans (`True == 1` holds in
Python, so the recording loop fires on `True` entries). -/
def boolExitPrompt : String := "Is Exit: [True, False, True]"

/-- A state over boolean-valued vectors, used to instantiate the
parametric parsing theorems at a non-integer element type. -/
def boolState : AgentStateG Bool where
  adj := []
  room_locked := List.replicate 8 false
  room_haskey := List.replicate 8 false
  room_exit := List.replicate 8 false
  room_visited := List.replicate 8 false
  room_inspected := List.replicate 8 false
  current_room := 0
  obs_visited := [0]
  obs_frontier := []
  obs_parent := [(0, none)]
  exit_room := none
  known_key_room := none
  path_to_exit := []
  path_index := 0
  has_committed := false
  pending_getkey := false
  pending_usekey := false

/-- A prompt that drives the committed engine to subscript the flag
vectors at room 12, raising `IndexError` inside `_exec_action`. -/
def faultPrompt : String := "Current Room: 12\nPhase: Execution"

/-- A committed state, route `[1, 2]`, standing in room 0 which holds a
key while room 1 is locked (the spec's key-before-lock scenario). -/
def keyScenarioState : AgentState :=
  { resetState with
      has_committed := true, exit_room := some 2, path_to_exit := [1, 2],
      path_index := 0, adj := [(0, [1]), (1, [0, 2]), (2, [1])], current_room := 0,
      room_haskey := [1, 0, 0, -1, -1, -1, -1, -1],
      room_locked := [0, 1, 0, -1, -1, -1, -1, -1],
      room_visited := [1, 1, 1, 0, 0, 0, 0, 0],
      room_inspected := [1, 1, 1, 0, 0, 0, 0, 0] }

/-- The execution prompt matching `keyScenarioState`. -/
def execKeyPrompt : String :=
  "Current Room: 0\nPhase: Execution\nRooms Visited: [1, 1, 1, 0, 0, 0, 0, 0]\nRooms Inspected: [1, 1, 1, 0, 0, 0, 0, 0]\n- Locked: [0, 1, 0, -1, -1, -1, -1, -1]\n- Has Key: [1, 0, 0, -1, -1, -1, -1, -1]\n- Is Exit: [0, 0, 1, -1, -1, -1, -1, -1]"

/-- A state knowing the graph 0-1-2, 0-3, with the exit at 2, room 1
locked (blocking the direct path) and the key off the path at room 3. -/
def detourState : AgentState :=
  { resetState with
      adj := [(0, [1, 3]), (1, [0, 2]), (2, [1]), (3, [0])],
      room_locked := [0, 1, 0, 0, 0, 0, 0, 0],
      exit_room := some 2, known_key_room := some 3 }

/-- An observation prompt in which no move ever succeeds: the visited
vector stays `[1, 0, ..., 0]` and no exit is ever shown. -/
def stuckPrompt : String :=
  "Current Room: 0\nPhase: Observation\nRooms Visited: [1, 0, 0, 0, 0, 0, 0, 0]"

/-- Turn 1 of the 2-room no-exit episode: still in room 0. -/
def obsPrompt0 : String :=
  "Current Room: 0\nPhase: Observation\nRooms Visited: [1, 0, 0, 0, 0, 0, 0, 0]\nRooms Inspected: [1, 0, 0, 0, 0, 0, 0, 0]\n- Locked: [-1, -1, -1, -1, -1, -1, -1, -1]\n- Has Key: [-1, -1, -1, -1, -1, -1, -1, -1]\n- Is Exit: [-1, -1, -1, -1, -1, -1, -1, -1]"

/-- Later turns of the 2-room no-exit episode: room 1 was reached, no
further room ever becomes visited and no exit is ever shown. -/
def obsPrompt1 : String :=
  "Current Room: 1\nPhase: Observation\nRooms Visited: [1, 1, 0, 0, 0, 0, 0, 0]\nRooms Inspected: [1, 1, 0, 0, 0, 0, 0, 0]\n- Locked: [0, 0, -1, -1, -1, -1, -1, -1]\n- Has Key: [0, 0, -1, -1, -1, -1, -1, -1]\n- Is Exit: [0, 0, -1, -1, -1, -1, -1, -1]"

/-- The 2-room no-exit episode of the spec's frontier-exhaustion
scenario: one successful move into room 1, then no change. -/
def twoRoomEpisode : List String := [obsPrompt0] ++ List.replicate 13 obsPrompt1

/-! ## Field-level characterisation of the parser's state update -/

set_option maxHeartbeats 1000000 in
/-- Each flag vector is overwritten exactly when its label parses (for
an arbitrary element type, evaluator and equals-1 test), the known
key/exit room follows the last index passing the equals-1 test of a
freshly parsed vector, the committed flag is set by an execution phase
word, and no other field of the state is touched by `_sync_state`. -/
theorem sync_state_gen_spec {α : Type} (ev : List Char → Option (List α))
    (eqOne : α → Bool) (p : List Char) (s : AgentStateG α) :
    (sync_state_gen ev eqOne p s).current_room =
      (match parse_int p "Current Room" with | some n => n | none => s.current_room) ∧
    (sync_state_gen ev eqOne p s).room_visited =
      (match parse_list_gen ev p "Rooms Visited" with
       | some v => v | none => s.room_visited) ∧
    (sync_state_gen ev eqOne p s).room_inspected =
      (match parse_list_gen ev p "Rooms Inspected" with
       | some v => v | none => s.room_inspected) ∧
    (sync_state_gen ev eqOne p s).room_locked =
      (match parse_list_gen ev p "Locked" with
       | some v => v | none => s.room_locked) ∧
    (sync_state_gen ev eqOne p s).room_haskey =
      (match parse_list_gen ev p "Has Key" with
       | some v => v | none => s.room_haskey) ∧
    (sync_state_gen ev eqOne p s).room_exit =
      (match parse_list_gen ev p "Is Exit" with
       | some v => v | none => s.room_exit) ∧
    (sync_state_gen ev eqOne p s).known_key_room =
      (match parse_list_gen ev p "Has Key" with
       | some v =>
         (match lastIndexSat eqOne v with | some i => some i | none => s.known_key_room)
       | none => s.known_key_room) ∧
    (sync_state_gen ev eqOne p s).exit_room =
      (match parse_list_gen ev p "Is Exit" with
       | some v =>
         (match lastIndexSat eqOne v with | some i => some i | none => s.exit_room)
       | none => s.exit_room) ∧
    (sync_state_gen ev eqOne p s).has_committed =
      (if phaseIndicatesExecution p then true else s.has_committed) ∧
    (sync_state_gen ev eqOne p s).adj = s.adj ∧
    (sync_state_gen ev eqOne p s).obs_visited = s.obs_visited ∧
    (sync_state_gen ev eqOne p s).obs_frontier = s.obs_frontier ∧
    (sync_state_gen ev eqOne p s).obs_parent = s.obs_parent ∧
    (sync_state_gen ev eqOne p s).path_to_exit = s.path_to_exit ∧
    (sync_state_gen ev eqOne p s).path_index = s.path_index ∧
    (sync_state_gen ev eqOne p s).pending_getkey = s.pending_getkey ∧
    (sync_state_gen ev eqOne p s).pending_usekey = s.pending_usekey := by
  unfold sync_state_gen
  cases parse_int p "Current Room" <;>
    cases parse_list_gen ev p "Rooms Visited" <;>
    cases parse_list_gen ev p "Rooms Inspected" <;>
    cases parse_list_gen ev p "Locked" <;>
    cases parse_list_gen ev p "Has Key" <;>
    cases parse_list_gen ev p "Is Exit" <;>
    simp [apply_ite]

/-- The `sync_state_gen_spec` characterisation at the concrete integer
instance the engine runs on. -/
theorem sync_state_spec (p : List Char) (s : AgentState) :
    (sync_state p s).current_room =
      (match parse_int p "Current Room" with | some n => n | none => s.current_room) ∧
    (sync_state p s).room_visited =
      (match parse_list p "Rooms Visited" with | some v => v | none => s.room_visited) ∧
    (sync_state p s).room_inspected =
      (match parse_list p "Rooms Inspected" with | some v => v | none => s.room_inspected) ∧
    (sync_state p s).room_locked =
      (match parse_list p "Locked" with | some v => v | none => s.room_locked) ∧
    (sync_state p s).room_haskey =
      (match parse_list p "Has Key" with | some v => v | none => s.room_haskey) ∧
    (sync_state p s).room_exit =
      (match parse_list p "Is Exit" with | some v => v | none => s.room_exit) ∧
    (sync_state p s).known_key_room =
      (match parse_list p "Has Key" with
       | some v =>
         (match lastIndexEqOne v with | some i => some i | none => s.known_key_room)
       | none => s.known_key_room) ∧
    (sync_state p s).exit_room =
      (match parse_list p "Is Exit" with
       | some v =>
         (match lastIndexEqOne v with | some i => some i | none => s.exit_room)
       | none => s.exit_room) ∧
    (sync_state p s).has_committed =
      (if phaseIndicatesExecution p then true else s.has_committed) ∧
    (sync_state p s).adj = s.adj ∧
    (sync_state p s).obs_visited = s.obs_visited ∧
    (sync_state p s).obs_frontier = s.obs_frontier ∧
    (sync_state p s).obs_parent = s.obs_parent ∧
    (sync_state p s).path_to_exit = s.path_to_exit ∧
    (sync_state p s).path_index = s.path_index ∧
    (sync_state p s).pending_getkey = s.pending_getkey ∧
    (sync_state p s).pending_usekey = s.pending_usekey := by
  unfold sync_state parse_list lastIndexEqOne sync_state_gen
  cases parse_int p "Current Room" <;>
    cases parse_list_gen parseIntList p "Rooms Visited" <;>
    cases parse_list_gen parseIntList p "Rooms Inspected" <;>
    cases parse_list_gen parseIntList p "Locked" <;>
    cases parse_list_gen parseIntList p "Has Key" <;>
    cases parse_list_gen parseIntList p "Is Exit" <;>
    simp [apply_ite]

/-! ## Adjacency lemmas -/

theorem mem_insertSorted (b y : Nat) (l : List Nat) :
    y ∈ insertSorted b l ↔ y = b ∨ y ∈ l := by
  induction l with
  | nil => simp [insertSorted]
  | cons x t ih =>
    unfold insertSorted
    split
    · rename_i h
      subst h
      simp only [List.mem_cons]
      tauto
    · split
      · simp only [List.mem_cons]
      · simp only [List.mem_cons, ih]
        tauto

theorem adjGet_adjAdd (adj : List (Nat × List Nat)) (a b x : Nat) :
    adjGet (adjAdd adj a b) x =
      if x = a then insertSorted b (adjGet adj a) else adjGet adj x := by
  induction adj with
  | nil =>
    by_cases h : x = a
    · subst h
      simp [adjAdd, adjGet, insertSorted]
    · have h2 : ¬ a = x := fun hh => h hh.symm
      simp [adjAdd, adjGet, h, h2]
  | cons kv t ih =>
    obtain ⟨k, v⟩ := kv
    by_cases h1 : k = a
    · subst h1
      by_cases h2 : x = k
      · subst h2
        simp [adjAdd, adjGet]
      · have h3 : ¬ k = x := fun hh => h2 hh.symm
        simp [adjAdd, adjGet, h2, h3]
    · by_cases h2 : x = a
      · subst h2
        simp [adjAdd, adjGet, h1, ih]
      · by_cases h3 : k = x
        · subst h3
          simp [adjAdd, adjGet, h1, h2]
        · simp [adjAdd, adjGet, h1, h2, h3, ih]

theorem mem_adjAdd (adj : List (Nat × List Nat)) (a b x y : Nat) :
    y ∈ adjGet (adjAdd adj a b) x ↔ (x = a ∧ y = b) ∨ y ∈ adjGet adj x := by
  rw [adjGet_adjAdd]
  by_cases h : x = a
  · subst h
    rw [if_pos rfl, mem_insertSorted]
    tauto
  · rw [if_neg h]
    tauto

theorem mem_adjAddPair (adj : List (Nat × List Nat)) (a b x y : Nat) :
    y ∈ adjGet (adjAdd (adjAdd adj a b) b a) x ↔
      (x = b ∧ y = a) ∨ (x = a ∧ y = b) ∨ y ∈ adjGet adj x := by
  rw [mem_adjAdd, mem_adjAdd]

theorem adjLe_refl (A : List (Nat × List Nat)) : AdjLe A A :=
  fun _ _ h => h

theorem adjLe_trans (A B C : List (Nat × List Nat)) (h1 : AdjLe A B) (h2 : AdjLe B C) :
    AdjLe A C :=
  fun x y h => h2 x y (h1 x y h)

theorem adjLe_pair (A : List (Nat × List Nat)) (a b : Nat) :
    AdjLe A (adjAdd (adjAdd A a b) b a) := by
  intro x y h
  rw [mem_adjAddPair]
  tauto

theorem adjSymm_pair (A : List (Nat × List Nat)) (a b : Nat) (h : AdjSymm A) :
    AdjSymm (adjAdd (adjAdd A a b) b a) := by
  intro x y hm
  rw [mem_adjAddPair] at hm ⊢
  rcases hm with ⟨hx, hy⟩ | ⟨hx, hy⟩ | hm
  · subst hx; subst hy; tauto
  · subst hx; subst hy; tauto
  · exact Or.inr (Or.inr (h x y hm))

/-! ## Frame lemmas: which state fields each operation can touch -/

theorem plan_solution_state (s : AgentState) :
    ∃ pth, (plan_solution s).2 = { s with path_to_exit := pth } := by
  unfold plan_solution
  (repeat' split) <;> exact ⟨_, rfl⟩

theorem exec_replan_state (s : AgentState) :
    ∃ pth, (exec_replan s).2 = { s with path_to_exit := pth } := by
  unfold exec_replan
  split
  · exact plan_solution_state s
  · exact ⟨s.path_to_exit, rfl⟩

theorem exec_tail_state (s : AgentState) : (exec_tail s).2 = s := by
  unfold exec_tail
  (repeat' split) <;> rfl

theorem exec_cursor_state (s : AgentState) : (exec_cursor_step s).2 = s := by
  unfold exec_cursor_step
  (repeat' split) <;> first | rfl | exact exec_tail_state s

theorem exec_path_state (s : AgentState) : (exec_path_step s).2 = s := by
  unfold exec_path_step
  (repeat' split) <;>
    first | rfl | exact exec_cursor_state s | exact exec_tail_state s

theorem exec_action_other (s : AgentState) :
    (exec_action s).2.has_committed = s.has_committed ∧
    (exec_action s).2.adj = s.adj := by
  unfold exec_action
  (repeat' split) <;> simp [exec_path_state]

theorem exec_action_pendG (s : AgentState) (hg : s.pending_getkey = false) :
    (exec_action s).2.pending_getkey = false := by
  unfold exec_action
  simp only [hg]
  (repeat' split) <;> simp [hg, exec_path_state]

theorem exec_action_pendU (s : AgentState) (hu : s.pending_usekey = false) :
    (exec_action s).2.pending_usekey = false := by
  unfold exec_action
  (repeat' split) <;> simp [hu, exec_path_state]

theorem obs_tail_other (s : AgentState) :
    (obs_tail s).2.has_committed = s.has_committed ∧
    (obs_tail s).2.pending_getkey = s.pending_getkey ∧
    (obs_tail s).2.pending_usekey = s.pending_usekey ∧
    (obs_tail s).2.adj = s.adj := by
  unfold obs_tail
  obtain ⟨r, s1, hps⟩ : ∃ r s1, plan_solution s = (r, s1) := ⟨_, _, rfl⟩
  obtain ⟨pth, hp⟩ := plan_solution_state s
  rw [hps] at hp
  have hp2 : s1 = { s with path_to_exit := pth } := hp
  rw [hps]
  cases s.obs_frontier with
  | nil => cases r <;> simp [hp2]
  | cons t rest => simp

theorem obs_action_other (s : AgentState) :
    (obs_action s).2.has_committed = s.has_committed ∧
    (obs_action s).2.pending_getkey = s.pending_getkey ∧
    (obs_action s).2.pending_usekey = s.pending_usekey ∧
    (obs_action s).2.adj = s.adj := by
  unfold obs_action
  obtain ⟨r, s1, hps⟩ : ∃ r s1, plan_solution s = (r, s1) := ⟨_, _, rfl⟩
  obtain ⟨pth, hp⟩ := plan_solution_state s
  rw [hps] at hp
  have hp2 : s1 = { s with path_to_exit := pth } := hp
  cases s.exit_room with
  | none => exact obs_tail_other s
  | some ex =>
    cases r with
    | error e =>
      simp only [hps]
      simp [hp2]
    | ok u =>
      simp only [hps]
      cases hopl : obs_pathlocked s1.room_locked s1.path_to_exit with
      | error e =>
        simp only [hopl]
        simp [hp2]
      | ok pl =>
        simp only [hopl]
        have h2 := obs_tail_other s1
        split
        · simp [hp2]
        · rw [h2.1, h2.2.1, h2.2.2.1, h2.2.2.2]
          simp [hp2]

theorem record_step_other (pr : Nat) (pv : List Int) (i : Nat) (s : AgentState) :
    (record_step pr pv i s).2.has_committed = s.has_committed ∧
    (record_step pr pv i s).2.pending_getkey = s.pending_getkey ∧
    (record_step pr pv i s).2.pending_usekey = s.pending_usekey := by
  unfold record_step enqueueUnvisited
  (repeat' split) <;> simp [apply_ite]

theorem record_step_adj (pr : Nat) (pv : List Int) (i : Nat) (s : AgentState) :
    AdjLe s.adj (record_step pr pv i s).2.adj ∧
    (AdjSymm s.adj → AdjSymm (record_step pr pv i s).2.adj) := by
  unfold record_step enqueueUnvisited
  (repeat' split) <;>
    first
      | exact ⟨adjLe_refl _, fun h => h⟩
      | exact ⟨adjLe_pair _ _ _, adjSymm_pair _ _ _⟩

theorem record_fold_other (pr : Nat) (pv : List Int) (l : List Nat) :
    ∀ s : AgentState,
      (record_fold pr pv l s).2.has_committed = s.has_committed ∧
      (record_fold pr pv l s).2.pending_getkey = s.pending_getkey ∧
      (record_fold pr pv l s).2.pending_usekey = s.pending_usekey := by
  induction l with
  | nil => intro s; exact ⟨rfl, rfl, rfl⟩
  | cons i t ih =>
    intro s
    unfold record_fold
    have h1 := record_step_other pr pv i s
    obtain ⟨r, s1, hrs⟩ : ∃ r s1, record_step pr pv i s = (r, s1) := ⟨_, _, rfl⟩
    rw [hrs] at h1
    rw [hrs]
    cases r with
    | error e => exact h1
    | ok u =>
      have h2 := ih s1
      exact ⟨h2.1.trans h1.1, h2.2.1.trans h1.2.1, h2.2.2.trans h1.2.2⟩

theorem record_fold_adj (pr : Nat) (pv : List Int) (l : List Nat) :
    ∀ s : AgentState,
      AdjLe s.adj (record_fold pr pv l s).2.adj ∧
      (AdjSymm s.adj → AdjSymm (record_fold pr pv l s).2.adj) := by
  induction l with
  | nil => intro s; exact ⟨adjLe_refl _, fun h => h⟩
  | cons i t ih =>
    intro s
    unfold record_fold
    have h1 := record_step_adj pr pv i s
    obtain ⟨r, s1, hrs⟩ : ∃ r s1, record_step pr pv i s = (r, s1) := ⟨_, _, rfl⟩
    rw [hrs] at h1
    rw [hrs]
    cases r with
    | error e => exact h1
    | ok u =>
      have h2 := ih s1
      exact ⟨adjLe_trans _ _ _ h1.1 h2.1, fun h => h2.2 (h1.2 h)⟩

theorem record_new_other (pr : Nat) (pv : List Int) (s : AgentState) :
    (record_new_neighbors pr pv s).2.has_committed = s.has_committed ∧
    (record_new_neighbors pr pv s).2.pending_getkey = s.pending_getkey ∧
    (record_new_neighbors pr pv s).2.pending_usekey = s.pending_usekey := by
  unfold record_new_neighbors
  exact record_fold_other pr pv (List.range 8) s

theorem record_new_adj (pr : Nat) (pv : List Int) (s : AgentState) :
    AdjLe s.adj (record_new_neighbors pr pv s).2.adj ∧
    (AdjSymm s.adj → AdjSymm (record_new_neighbors pr pv s).2.adj) := by
  unfold record_new_neighbors
  exact record_fold_adj pr pv (List.range 8) s

/-- The per-turn body after parsing preserves the committed flag,
cannot set a pending flag, and only ever extends the adjacency map with
symmetric edge pairs. -/
theorem select_after_sync_spec (s : AgentState) (pr : Nat) (pv : List Int) :
    (select_after_sync s pr pv).2.has_committed = s.has_committed ∧
    (s.pending_getkey = false → (select_after_sync s pr pv).2.pending_getkey = false) ∧
    (s.pending_usekey = false → (select_after_sync s pr pv).2.pending_usekey = false) ∧
    AdjLe s.adj (select_after_sync s pr pv).2.adj ∧
    (AdjSymm s.adj → AdjSymm (select_after_sync s pr pv).2.adj) := by
  unfold select_after_sync
  split
  · cases hcd : (if s.current_room ≠ pr then Except.ok true
                 else anyVisitedDiff s.room_visited pv (List.range 8)) with
    | error e => exact ⟨rfl, fun h => h, fun h => h, adjLe_refl _, fun h => h⟩
    | ok cond =>
      dsimp only
      obtain ⟨r, s1, hrn⟩ : ∃ r s1,
          (if cond then record_new_neighbors pr pv s
           else (Except.ok (), s)) = (r, s1) := ⟨_, _, rfl⟩
      rw [hrn]
      have hfacts : s1.has_committed = s.has_committed ∧
          s1.pending_getkey = s.pending_getkey ∧
          s1.pending_usekey = s.pending_usekey ∧
          AdjLe s.adj s1.adj ∧ (AdjSymm s.adj → AdjSymm s1.adj) := by
        cases cond with
        | false =>
          simp only [Bool.false_eq_true, if_false] at hrn
          have hs1 : s = s1 := congrArg Prod.snd hrn
          subst hs1
          exact ⟨rfl, rfl, rfl, adjLe_refl _, fun h => h⟩
        | true =>
          simp only [if_true] at hrn
          have h1 := record_new_other pr pv s
          have h2 := record_new_adj pr pv s
          rw [hrn] at h1 h2
          exact ⟨h1.1, h1.2.1, h1.2.2, h2.1, h2.2⟩
      cases r with
      | error e =>
        exact ⟨hfacts.1, fun h => hfacts.2.1.trans h,
               fun h => hfacts.2.2.1.trans h, hfacts.2.2.2.1, hfacts.2.2.2.2⟩
      | ok u =>
        dsimp only
        by_cases hsd : s1.obs_frontier = [] ∧ s1.obs_visited.length = 1
        · rw [if_pos hsd]
          have h3 := obs_action_other
            { s1 with obs_frontier :=
                s1.obs_frontier ++ (List.range 8).filter (fun c => decide (c ≠ 0)) }
          refine ⟨h3.1.trans hfacts.1, ?_, ?_, ?_, ?_⟩
          · intro h
            exact h3.2.1.trans (hfacts.2.1.trans h)
          · intro h
            exact h3.2.2.1.trans (hfacts.2.2.1.trans h)
          · intro x y hm
            rw [h3.2.2.2]
            exact hfacts.2.2.2.1 x y hm
          · intro h
            have := hfacts.2.2.2.2 h
            rw [show ({ s1 with obs_frontier :=
                s1.obs_frontier ++ (List.range 8).filter (fun c => decide (c ≠ 0)) } :
                AgentState).adj = s1.adj from rfl] at h3
            rw [h3.2.2.2]
            exact this
        · rw [if_neg hsd]
          have h3 := obs_action_other s1
          refine ⟨h3.1.trans hfacts.1, ?_, ?_, ?_, ?_⟩
          · intro h
            exact h3.2.1.trans (hfacts.2.1.trans h)
          · intro h
            exact h3.2.2.1.trans (hfacts.2.2.1.trans h)
          · intro x y hm
            rw [h3.2.2.2]
            exact hfacts.2.2.2.1 x y hm
          · intro h
            rw [h3.2.2.2]
            exact hfacts.2.2.2.2 h
  · obtain ⟨r, s1, hre⟩ : ∃ r s1, exec_replan s = (r, s1) := ⟨_, _, rfl⟩
    obtain ⟨pth, hp⟩ := exec_replan_state s
    rw [hre] at hp
    have hp2 : s1 = { s with path_to_exit := pth } := hp
    rw [hre]
    cases r with
    | error e =>
      refine ⟨?_, ?_, ?_, ?_, ?_⟩
      · simp [hp2]
      · simp [hp2]
      · simp [hp2]
      · rw [hp2]
        exact adjLe_refl _
      · rw [hp2]
        exact fun h => h
    | ok u =>
      have h1 := exec_action_other s1
      refine ⟨h1.1.trans (by rw [hp2]), ?_, ?_, ?_, ?_⟩
      · intro h
        exact exec_action_pendG s1 (by rw [hp2]; exact h)
      · intro h
        exact exec_action_pendU s1 (by rw [hp2]; exact h)
      · intro x y hm
        rw [h1.2, hp2]
        exact hm
      · intro h
        rw [h1.2, hp2]
        exact h

/-- One full `select_action` turn: the committed flag afterwards is
determined by the phase word and the prior flag, pending flags cannot
become set, and the adjacency map only grows, staying symmetric. -/
theorem select_action_spec (s : AgentState) (p : String) :
    ((select_action s p).2.has_committed =
      (if phaseIndicatesExecution p.data then true else s.has_committed)) ∧
    (s.pending_getkey = false → (select_action s p).2.pending_getkey = false) ∧
    (s.pending_usekey = false → (select_action s p).2.pending_usekey = false) ∧
    AdjLe s.adj (select_action s p).2.adj ∧
    (AdjSymm s.adj → AdjSymm (select_action s p).2.adj) := by
  obtain ⟨hc1, hv, hi, hl, hk, he, hkk, her, hcom, hadj, hov, hof, hop, hpth, hpi,
    hpg, hpu⟩ := sync_state_spec p.data s
  obtain ⟨ac, apg, apu, aadj, asym⟩ :=
    select_after_sync_spec (sync_state p.data s) s.current_room s.room_visited
  unfold select_action
  refine ⟨ac.trans hcom, ?_, ?_, ?_, ?_⟩
  · intro h
    exact apg (hpg.trans h)
  · intro h
    exact apu (hpu.trans h)
  · intro x y hm
    apply aadj
    rw [hadj]
    exact hm
  · intro h
    apply asym
    rw [hadj]
    exact h

/-! ## Episode-level helper lemmas -/

theorem stepState_committed (s : AgentState) (p : String)
    (h : s.has_committed = true ∨ phaseIndicatesExecution p.data = true) :
    (stepState s p).has_committed = true := by
  have hs := (select_action_spec s p).1
  unfold stepState
  rw [hs]
  rcases h with h | h
  · split
    · rfl
    · exact h
  · rw [if_pos h]

theorem stepMany_committed (ps : List String) :
    ∀ s : AgentState, s.has_committed = true → (stepMany s ps).has_committed = true := by
  induction ps with
  | nil => intro s h; exact h
  | cons p t ih =>
    intro s h
    unfold stepMany
    exact ih _ (stepState_committed s p (Or.inl h))

theorem stepMany_pend (ps : List String) :
    ∀ s : AgentState, s.pending_getkey = false → s.pending_usekey = false →
      (stepMany s ps).pending_getkey = false ∧ (stepMany s ps).pending_usekey = false := by
  induction ps with
  | nil => intro s hg hu; exact ⟨hg, hu⟩
  | cons p t ih =>
    intro s hg hu
    unfold stepMany
    exact ih _ ((select_action_spec s p).2.1 hg) ((select_action_spec s p).2.2.1 hu)

/-! ## The claims -/

/-- C1, counterexample: a prompt whose is-exit vector is
`[1, 0, 1, 0, 0, 0, 0, 0]` parses successfully, its first index with
value 1 is 0, yet the recorded known exit room is 2 — the code records
the last such index, refuting the claim as stated. -/
theorem C1_counterexample :
    parse_list exitVectorPrompt.data "Is Exit" = some [1, 0, 1, 0, 0, 0, 0, 0] ∧
    firstIndexEqOne [1, 0, 1, 0, 0, 0, 0, 0] = some 0 ∧
    (sync_state exitVectorPrompt.data resetState).exit_room = some 2 ∧
    (some 2 : Option Nat) ≠ some 0 := by
  refine ⟨by rfl, by rfl, by rfl, by decide⟩

/-- C1, amended: for every prompt whose is-exit (resp. has-key) field
yields a successfully parsed list, the LAST index whose element
compares equal to 1 is recorded as the known exit (resp. key) room,
and the prior value is kept when no element does.  Stated for an
arbitrary element type, an arbitrary evaluation function standing for
the caught `ast.literal_eval` of `_parse_list`, and an arbitrary test
standing for Python's `val == 1`, so instantiating them with Python's
own evaluator and numeric equality (integers, booleans where
`True == 1`, floats, and every other literal form) yields the program
fact; the concrete integer instance is `sync_state`/`parse_list`. -/
theorem C1_theorem {α : Type} (ev : List Char → Option (List α)) (eqOne : α → Bool)
    (s : AgentStateG α) (p : List Char) :
    (∀ v, parse_list_gen ev p "Is Exit" = some v →
      (sync_state_gen ev eqOne p s).exit_room =
        (match lastIndexSat eqOne v with | some i => some i | none => s.exit_room)) ∧
    (∀ v, parse_list_gen ev p "Has Key" = some v →
      (sync_state_gen ev eqOne p s).known_key_room =
        (match lastIndexSat eqOne v with
         | some i => some i | none => s.known_key_room)) := by
  obtain ⟨-, -, -, -, -, -, hkk, her, -, -, -, -, -, -, -, -, -⟩ :=
    sync_state_gen_spec ev eqOne p s
  constructor
  · intro v hv
    rw [her]
    simp [hv]
  · intro v hv
    rw [hkk]
    simp [hv]

/-- C1, witness: at the concrete integer instance, a prompt with
has-key 1 only at index 1 and is-exit 1 only at index 2 records rooms 1
and 2; and at a boolean instance (Python's `True == 1` test is the
identity on booleans), the vector `[True, False, True]` records the
last True index, 2. -/
theorem C1_witness :
    (sync_state keyExitPrompt.data resetState).exit_room = some 2 ∧
    (sync_state keyExitPrompt.data resetState).known_key_room = some 1 ∧
    (sync_state_gen (fun _ => some [true, false, true]) (fun b => b)
      boolExitPrompt.data boolState).exit_room = some 2 :=
  ⟨((C1_theorem parseIntList (fun x => decide (x = 1)) resetState
      keyExitPrompt.data).1 [0, 0, 1, 0, 0, 0, 0, 0] (by rfl)).trans (by rfl),
   ((C1_theorem parseIntList (fun x => decide (x = 1)) resetState
      keyExitPrompt.data).2 [0, 1, 0, 0, 0, 0, 0, 0] (by rfl)).trans (by rfl),
   ((C1_theorem (fun _ => some [true, false, true]) (fun b => b) boolState
      boolExitPrompt.data).1 [true, false, true] (by rfl)).trans (by rfl)⟩

/-- C2, counterexample: the bracketed list `[1, 2]` of length 2 parses
successfully and IS stored into the visited vector, replacing the prior
8-element value — the code performs no length check, refuting the
claimed no-op for lengths other than 8. -/
theorem C2_counterexample :
    parse_list shortListPrompt.data "Rooms Visited" = some [1, 2] ∧
    (sync_state shortListPrompt.data resetState).room_visited = [1, 2] ∧
    resetState.room_visited ≠ [1, 2] ∧
    ([1, 2] : List Int).length ≠ 8 := by
  refine ⟨by rfl, by rfl, by decide, by decide⟩

/-- C2, amended: for every flag-vector field, if the bracketed group is
absent or its evaluation fails (the caught `ValueError`/`SyntaxError`
of `ast.literal_eval`, modelled by the abstract evaluator returning
`none`), the stored value is left unchanged and no exception is raised
(the update is a total function); a successfully parsed list is stored
verbatim whatever its length.  Stated for an arbitrary element type,
evaluator and equals-1 test, so instantiating at Python's own evaluator
— whose grammar includes floats, booleans, strings and tuples, and
whose failure set includes leading-zero literals like `01` — yields the
program fact; the length-different-from-8 part of the original claim is
refuted by the counterexample. -/
theorem C2_theorem {α : Type} (ev : List Char → Option (List α)) (eqOne : α → Bool)
    (s : AgentStateG α) (p : List Char) :
    (parse_list_gen ev p "Rooms Visited" = none →
      (sync_state_gen ev eqOne p s).room_visited = s.room_visited) ∧
    (parse_list_gen ev p "Rooms Inspected" = none →
      (sync_state_gen ev eqOne p s).room_inspected = s.room_inspected) ∧
    (parse_list_gen ev p "Locked" = none →
      (sync_state_gen ev eqOne p s).room_locked = s.room_locked) ∧
    (parse_list_gen ev p "Has Key" = none →
      (sync_state_gen ev eqOne p s).room_haskey = s.room_haskey) ∧
    (parse_list_gen ev p "Is Exit" = none →
      (sync_state_gen ev eqOne p s).room_exit = s.room_exit) ∧
    (∀ v, parse_list_gen ev p "Rooms Visited" = some v →
      (sync_state_gen ev eqOne p s).room_visited = v) ∧
    (∀ v, parse_list_gen ev p "Rooms Inspected" = some v →
      (sync_state_gen ev eqOne p s).room_inspected = v) ∧
    (∀ v, parse_list_gen ev p "Locked" = some v →
      (sync_state_gen ev eqOne p s).room_locked = v) ∧
    (∀ v, parse_list_gen ev p "Has Key" = some v →
      (sync_state_gen ev eqOne p s).room_haskey = v) ∧
    (∀ v, parse_list_gen ev p "Is Exit" = some v →
      (sync_state_gen ev eqOne p s).room_exit = v) := by
  obtain ⟨-, hv, hi, hl, hk, he, -, -, -, -, -, -, -, -, -, -, -⟩ :=
    sync_state_gen_spec ev eqOne p s
  refine ⟨?_, ?_, ?_, ?_, ?_, ?_, ?_, ?_, ?_, ?_⟩
  · intro h
    rw [hv]
    simp [h]
  · intro h
    rw [hi]
    simp [h]
  · intro h
    rw [hl]
    simp [h]
  · intro h
    rw [hk]
    simp [h]
  · intro h
    rw [he]
    simp [h]
  · intro v h
    rw [hv]
    simp [h]
  · intro v h
    rw [hi]
    simp [h]
  · intro v h
    rw [hl]
    simp [h]
  · intro v h
    rw [hk]
    simp [h]
  · intro v h
    rw [he]
    simp [h]

/-- C2, witness, at the concrete integer instance: a malformed visited
field (`[1, x]`) and a leading-zero item (`[01]`, a Python SyntaxError)
both leave the prior visited vector unchanged, while the underscored
items of `[1_0, 2]` (Python integers) are stored as `[10, 2]`. -/
theorem C2_witness :
    (sync_state malformedPrompt.data resetState).room_visited =
      resetState.room_visited ∧
    (sync_state leadingZeroPrompt.data resetState).room_visited =
      resetState.room_visited ∧
    (sync_state underscorePrompt.data resetState).room_visited = [10, 2] :=
  ⟨(C2_theorem parseIntList (fun x => decide (x = 1)) resetState
      malformedPrompt.data).1 (by rfl),
   (C2_theorem parseIntList (fun x => decide (x = 1)) resetState
      leadingZeroPrompt.data).1 (by rfl),
   (C2_theorem parseIntList (fun x => decide (x = 1)) resetState
      underscorePrompt.data).2.2.2.2.2.1 [10, 2] (by rfl)⟩

/-- C3, counterexample: after reset the visited and inspected vectors
are all-zero (all-false), not all-unknown (-1), refuting the claim that
all five flag vectors are reset to all-unknown; the frontier moreover
resets to the empty queue, not to a singleton. -/
theorem C3_counterexample :
    (reset resetState).room_visited = List.replicate 8 0 ∧
    (reset resetState).room_inspected = List.replicate 8 0 ∧
    (reset resetState).room_visited ≠ List.replicate 8 (-1) ∧
    (reset resetState).obs_frontier = [] := by
  refine ⟨rfl, rfl, by decide, rfl⟩

/-- C3, amended: reset, for any prior state, empties the adjacency map,
forgets the exit and key rooms, empties the path and zeroes the cursor,
clears the committed and both pending flags, sets the locked, has-key
and is-exit vectors to all-unknown (-1) but the visited and inspected
vectors to all-false (0), sets the current room to 0, the exploration
visited-set to the singleton {0} and the frontier to the empty queue. -/
theorem C3_theorem (s : AgentState) :
    (reset s).adj = [] ∧ (reset s).exit_room = none ∧
    (reset s).known_key_room = none ∧ (reset s).path_to_exit = [] ∧
    (reset s).path_index = 0 ∧ (reset s).has_committed = false ∧
    (reset s).pending_getkey = false ∧ (reset s).pending_usekey = false ∧
    (reset s).room_locked = List.replicate 8 (-1) ∧
    (reset s).room_haskey = List.replicate 8 (-1) ∧
    (reset s).room_exit = List.replicate 8 (-1) ∧
    (reset s).room_visited = List.replicate 8 0 ∧
    (reset s).room_inspected = List.replicate 8 0 ∧
    (reset s).current_room = 0 ∧ (reset s).obs_visited = [0] ∧
    (reset s).obs_frontier = [] :=
  ⟨rfl, rfl, rfl, rfl, rfl, rfl, rfl, rfl, rfl, rfl, rfl, rfl, rfl, rfl, rfl, rfl⟩

/-- C4: whenever selecting the turn's action raises internally, the
`run` turn wrapper returns the INSPECT default instead of propagating
the error, and hands the (partially updated, still well-formed) state
to the next turn — `runStep` is total by construction, so the fault
cannot corrupt the state model for subsequent turns. -/
theorem C4_theorem (s : AgentState) (p : String) (e : PyErr)
    (h : (select_action (resetIfMove0 p s) p).1 = Except.error e) :
    runStep s p = (ActionJ.inspect, (select_action (resetIfMove0 p s) p).2) := by
  unfold runStep
  obtain ⟨r, s1, hsel⟩ : ∃ r s1, select_action (resetIfMove0 p s) p = (r, s1) :=
    ⟨_, _, rfl⟩
  rw [hsel] at h ⊢
  have hr : r = Except.error e := h
  subst hr
  rfl

/-- C4, witness: the prompt `Current Room: 12` with an execution phase
makes `_exec_action` subscript the has-key vector out of range
(IndexError); `run` still returns INSPECT. -/
theorem C4_witness :
    runStep resetState faultPrompt =
      (ActionJ.inspect,
        (select_action (resetIfMove0 faultPrompt resetState) faultPrompt).2) :=
  C4_theorem resetState faultPrompt PyErr.indexError (by rfl)

/-- C5: when the exit is known, the direct BFS path is non-empty and
carries at least one locked room, a key room is known and does not lie
on the direct path before its first locked room, and both detour halves
are non-empty, the planned route is `shortestPath(0, keyRoom)` followed
by `shortestPath(keyRoom, exit)` without the duplicated key room. -/
theorem C5_theorem (s : AgentState) (ex k : Nat) (d L p1 p2 : List Nat)
    (hex : s.exit_room = some ex)
    (hd : bfs_path s.adj 0 ex = d) (hdne : d ≠ [])
    (hL : locksOnPath s.room_locked d = Except.ok L) (hLne : L ≠ [])
    (hk : s.known_key_room = some k)
    (hkey : ¬(k ∈ d ∧ d.indexOf k < firstLockIdx d L))
    (hp1 : bfs_path s.adj 0 k = p1) (hp1ne : p1 ≠ [])
    (hp2 : bfs_path s.adj k ex = p2) (hp2ne : p2 ≠ []) :
    plan_solution s = (Except.ok (), { s with path_to_exit := p1 ++ p2.tail }) := by
  have hLb : L.isEmpty = false := by
    cases L with
    | nil => exact absurd rfl hLne
    | cons a t => rfl
  have hp1b : p1.isEmpty = false := by
    cases p1 with
    | nil => exact absurd rfl hp1ne
    | cons a t => rfl
  have hp2b : p2.isEmpty = false := by
    cases p2 with
    | nil => exact absurd rfl hp2ne
    | cons a t => rfl
  have hkeyb : have_key_on_path (some k) d L = false := by
    unfold have_key_on_path
    dsimp only
    by_cases hm : k ∈ d
    · rw [if_pos hm]
      exact decide_eq_false (fun hlt => hkey ⟨hm, hlt⟩)
    · rw [if_neg hm]
  unfold plan_solution
  simp only [hex, hd, hk]
  rw [if_neg hdne]
  simp only [hL, hLb, hkeyb, hp1, hp2, hp1b, hp2b, Bool.not_false, Bool.and_self,
    if_true]

/-- C5, witness: graph 0-1-2 and 0-3, exit 2, room 1 locked, key at
room 3: the plan is `[0, 3] ++ tail [3, 0, 1, 2] = [0, 3, 0, 1, 2]`. -/
theorem C5_witness :
    plan_solution detourState =
      (Except.ok (), { detourState with path_to_exit := [0, 3, 0, 1, 2] }) :=
  C5_theorem detourState 2 3 [0, 1, 2] [1] [0, 3] [3, 0, 1, 2] rfl rfl
    (by decide) rfl (by decide) rfl (by decide) rfl (by decide) rfl (by decide)

/-- C6: in the execution phase (committed state), with both pending
flags clear and a successful re-plan step, whenever the current room's
has-key flag equals 1 the selected action is GETKEY. -/
theorem C6_theorem (s : AgentState) (p : String)
    (hc : (sync_state p.data s).has_committed = true)
    (hg : (sync_state p.data s).pending_getkey = false)
    (hu : (sync_state p.data s).pending_usekey = false)
    (hre : (exec_replan (sync_state p.data s)).1 = Except.ok ())
    (hk1 : pyGet (sync_state p.data s).room_haskey
      (sync_state p.data s).current_room = Except.ok 1) :
    (select_action s p).1 = Except.ok ActionJ.getkey := by
  unfold select_action select_after_sync
  obtain ⟨r, s2, hrp⟩ : ∃ r s2, exec_replan (sync_state p.data s) = (r, s2) :=
    ⟨_, _, rfl⟩
  obtain ⟨pth, hp⟩ := exec_replan_state (sync_state p.data s)
  rw [hrp] at hp hre
  have hp2 : s2 = { (sync_state p.data s) with path_to_exit := pth } := hp
  have hr : r = Except.ok () := hre
  subst hr
  split
  · rename_i hfalse
    rw [hc] at hfalse
    exact absurd hfalse (by decide)
  · simp only [hrp]
    unfold exec_action
    simp [hp2, hg, hu, hk1]

/-- C6, witness: the spec's key-before-lock scenario — committed, route
[1, 2], current room 0 holding a key, room 1 locked — selects GETKEY
(in particular not a MOVE). -/
theorem C6_witness :
    (select_action keyScenarioState execKeyPrompt).1 = Except.ok ActionJ.getkey ∧
    keyScenarioState.path_to_exit = [1, 2] ∧
    keyScenarioState.room_locked.get? 1 = some 1 ∧
    keyScenarioState.room_haskey.get? 0 = some 1 :=
  ⟨C6_theorem keyScenarioState execKeyPrompt (by rfl) (by rfl) (by rfl) (by rfl)
      (by rfl),
   by decide, by decide, by decide⟩

/-- C7: once a prompt's phase word contains "Execution", the committed
flag is true after that turn and after every later sequence of
`select_action` turns — no later prompt can clear it (only `reset`,
which `select_action` never calls, clears it). -/
theorem C7_theorem (s : AgentState) (p : String) (ps : List String)
    (h : phaseIndicatesExecution p.data = true) :
    (stepMany (stepState s p) ps).has_committed = true :=
  stepMany_committed ps (stepState s p) (stepState_committed s p (Or.inr h))

/-- C7, witness: an execution-phase prompt followed by an arbitrary
further prompt leaves the committed flag true. -/
theorem C7_witness :
    (stepMany (stepState resetState "Phase: Execution") [""]).has_committed = true :=
  C7_theorem resetState "Phase: Execution" [""] (by rfl)

/-- C8: across one `select_action` turn, a symmetric adjacency map
stays symmetric, and every edge present before the turn is still
present after it (edges are only ever added, in both directions). -/
theorem C8_theorem (s : AgentState) (p : String) (hsym : AdjSymm s.adj) :
    AdjSymm ((select_action s p).2.adj) ∧
    AdjLe s.adj ((select_action s p).2.adj) :=
  ⟨(select_action_spec s p).2.2.2.2 hsym, (select_action_spec s p).2.2.2.1⟩

/-- C8, witness: from the freshly reset (empty, trivially symmetric)
adjacency map, the map after a turn is symmetric. -/
theorem C8_witness :
    AdjSymm ((select_action resetState "").2.adj) :=
  (C8_theorem resetState "" (fun _ _ h => nomatch h)).1

set_option maxRecDepth 100000 in
/-- C9, counterexample: in an episode whose prompts never show a new
visited room and never show an exit, the engine issues MOVE on each of
the first 65 turns — more than room-count² = 64 — and never COMMITs:
the frontier is re-seeded whenever it empties while only room 0 is
known, so the claimed bound (and termination) fails. -/
theorem C9_counterexample :
    (actionsOf resetState (List.replicate 65 stuckPrompt)).length = 65 ∧
    (actionsOf resetState (List.replicate 65 stuckPrompt)).all isMoveOutcome = true ∧
    (stepMany resetState (List.replicate 65 stuckPrompt)).exit_room = none := by
  refine ⟨by rfl, by rfl, by rfl⟩

set_option maxRecDepth 100000 in
/-- C9, amended: in the spec's 2-room scenario itself — one successful
move into room 1, then no change and no exit ever discovered — the
engine does emit COMMIT within 64 turns: turns 1-13 are MOVEs and turn
14 is COMMIT; but the bound does not hold for every exit-free episode
(see the counterexample where no move ever succeeds). -/
theorem C9_theorem :
    actionsOf resetState twoRoomEpisode =
      [Except.ok (ActionJ.move 1), Except.ok (ActionJ.move 2),
       Except.ok (ActionJ.move 3), Except.ok (ActionJ.move 4),
       Except.ok (ActionJ.move 5), Except.ok (ActionJ.move 6),
       Except.ok (ActionJ.move 7), Except.ok (ActionJ.move 2),
       Except.ok (ActionJ.move 3), Except.ok (ActionJ.move 4),
       Except.ok (ActionJ.move 5), Except.ok (ActionJ.move 6),
       Except.ok (ActionJ.move 7), Except.ok ActionJ.commit] ∧
    twoRoomEpisode.length = 14 ∧ twoRoomEpisode.length ≤ 64 := by
  refine ⟨by rfl, by rfl, by decide⟩

/-- C10: starting from the freshly reset state, the pending-GETKEY and
pending-USEKEY flags are false after every sequence of action-selection
calls: no operation of the engine ever sets them, so the two
highest-priority execution steps can never fire. -/
theorem C10_theorem (ps : List String) :
    (stepMany resetState ps).pending_getkey = false ∧
    (stepMany resetState ps).pending_usekey = false :=
  stepMany_pend ps resetState rfl rfl

end Purple
